import Mathlib

set_option maxHeartbeats 1000000

/-!
Shallow embedding of the parameter model of `src/gui/panels/LfoPanel.h`
(classes `Param`, `ParamDb` and `ParamStepped`).

Modelling choices:
* machine floats are modelled as exact rationals for the value store, and
  as real numbers for the decibel conversions, which the code computes with
  the transcendental library functions `std::log10` and `std::pow`;
* listener notification is modelled by returning, next to the new state,
  the list of listener identifiers whose `paramUIChanged` callback was
  invoked by the call (JUCE `ListenerList::call` invokes each stored
  listener once, and `ListenerList::add` stores a listener at most once);
* `jassert` is a debug-only check that is a no-op in release builds; it is
  modelled as a no-op, its condition reappearing as an explicit hypothesis
  where a property needs it;
* the C++ member `std::atomic<bool> uiDirty;` is default-initialised; no
  verified property depends on its initial value, which is taken as
  `false` in the modelled constructor.
-/

/-- State of the base class `Param`: the atomically stored value `val_`,
the immutable bounds and default, the step count, the host-write dirty
flag and the registered listener identifiers. The identity strings
(`name_`, `serializationTag_`, `unit_`) play no role in any verified
property and are omitted. -/
structure Param where
  val_ : ℚ
  min_ : ℚ
  max_ : ℚ
  default_ : ℚ
  numSteps_ : Int
  uiDirty : Bool
  listeners : List Nat
deriving Repr, DecidableEq

/-- The constructor `Param::Param` (identity strings dropped): `val_`
starts at the default. Its `jassert`s (`min < max`, `min ≤ default ≤ max`)
are hypotheses of the construction theorems. -/
def Param.mkP (minval maxval defaultval : ℚ) (numSteps : Int) : Param :=
  { val_ := defaultval, min_ := minval, max_ := maxval, default_ := defaultval,
    numSteps_ := numSteps, uiDirty := false, listeners := [] }

/-- `Param::set`: store unconditionally. -/
def Param.set (p : Param) (f : ℚ) : Param := { p with val_ := f }

/-- `Param::get`. -/
def Param.get (p : Param) : ℚ := p.val_

/-- `Param::setUI`: store `f` if it lies in `[min_, max_]`, otherwise store
the default; when `notifyHost` is set, call every registered listener.
The second component is the list of notified listeners. -/
def Param.setUI (p : Param) (f : ℚ) (notifyHost : Bool) : Param × List Nat :=
  (if f ≥ p.min_ ∧ f ≤ p.max_ then p.set f else p.set p.default_,
   if notifyHost then p.listeners else [])

/-- `Param::getUI`: the base class returns the raw value. -/
def Param.getUI (p : Param) : ℚ := p.get

/-- `Param::setHost`: `setUI` without notification, then raise the dirty
flag. -/
def Param.setHost (p : Param) (f : ℚ) : Param × List Nat :=
  let r := p.setUI f false
  ({ r.1 with uiDirty := true }, r.2)

/-- `Param::isUIDirty`: get-and-reset on the dirty flag. -/
def Param.isUIDirty (p : Param) : Param × Bool :=
  ({ p with uiDirty := false }, p.uiDirty)

/-- `Param::addListener`, via JUCE `ListenerList::add`, which stores the
listener only if it is not already registered. -/
def Param.addListener (p : Param) (l : Nat) : Param :=
  if l ∈ p.listeners then p else { p with listeners := p.listeners ++ [l] }

/-- `Param::removeListener`, via JUCE `ListenerList::remove`. -/
def Param.removeListener (p : Param) (l : Nat) : Param :=
  { p with listeners := p.listeners.erase l }

/-- `Param::midiToPanValue`: 64 maps to the exact centre, values at most 1
map to the exact left end, everything else goes through the generic affine
formula `2 * m / 127 - 1`. -/
def Param.midiToPanValue (midiValue : Int) : ℚ :=
  if midiValue = 64 then 0
  else if midiValue ≤ 1 then -1
  else 2 * (midiValue : ℚ) / 127 - 1

/-- `Param::MIN_DB`. -/
def MIN_DB : ℝ := -96

/-- `Param::toDb`: `20 * log10 linear` for positive input, else `MIN_DB`. -/
noncomputable def toDb (linear : ℝ) : ℝ :=
  if linear > 0 then 20 * Real.logb 10 linear else MIN_DB

/-- `Param::fromDb`: `10 ^ (db / 20)`, except inputs at or below `MIN_DB`
map to exactly `0`. -/
noncomputable def fromDb (db : ℝ) : ℝ :=
  if db ≤ MIN_DB then 0 else (10 : ℝ) ^ (db / 20)

/-- State of `ParamDb`: same fields as the base class, with the stored
linear amplitude and the bounds modelled as real numbers because `setUI`
compares against `fromDb` of the input. -/
structure ParamDb where
  val_ : ℝ
  min_ : ℝ
  max_ : ℝ
  default_ : ℝ
  uiDirty : Bool
  listeners : List Nat

/-- The inherited constructor (`using Param::Param`) for `ParamDb`. -/
def ParamDb.mkP (minval maxval defaultval : ℝ) : ParamDb :=
  { val_ := defaultval, min_ := minval, max_ := maxval, default_ := defaultval,
    uiDirty := false, listeners := [] }

/-- Inherited `Param::set` on a `ParamDb`. -/
def ParamDb.set (p : ParamDb) (f : ℝ) : ParamDb := { p with val_ := f }

/-- Inherited `Param::get` on a `ParamDb`. -/
def ParamDb.get (p : ParamDb) : ℝ := p.val_

/-- `ParamDb::setUI`: the range check and the store both use the converted
linear value `fromDb f`. -/
noncomputable def ParamDb.setUI (p : ParamDb) (f : ℝ) (notifyHost : Bool) :
    ParamDb × List Nat :=
  (if fromDb f ≥ p.min_ ∧ fromDb f ≤ p.max_ then p.set (fromDb f) else p.set p.default_,
   if notifyHost then p.listeners else [])

/-- `ParamDb::getUI`: `toDb` of the stored linear value. -/
noncomputable def ParamDb.getUI (p : ParamDb) : ℝ := toDb p.get

/-- Inherited `Param::setHost` on a `ParamDb`; it dispatches to the
`ParamDb::setUI` override. -/
noncomputable def ParamDb.setHost (p : ParamDb) (f : ℝ) : ParamDb × List Nat :=
  let r := p.setUI f false
  ({ r.1 with uiDirty := true }, r.2)

/-- Inherited `Param::isUIDirty` on a `ParamDb`. -/
def ParamDb.isUIDirty (p : ParamDb) : ParamDb × Bool :=
  ({ p with uiDirty := false }, p.uiDirty)

/-- `std::trunc` (rounding toward zero) on an exact rational. -/
def ratTrunc (q : ℚ) : Int := if 0 ≤ q then ⌊q⌋ else ⌈q⌉

/-- State of `ParamStepped<E>`: the base-class state plus the enum
cardinality `E::nSteps`, the atomically stored step (an integer, as the
underlying value of the C++ enum, which the code writes through
`static_cast` without a range check in release builds) and the label
table. -/
structure ParamStepped where
  base : Param
  nSteps : Int
  step_ : Int
  labels_ : List String
  labelsSet : Bool
deriving Repr, DecidableEq

/-- The `ParamStepped` constructor: the base class gets range
`[0, nSteps-1]`, the default as float, and `nSteps` steps; `labels_` is an
array of `nSteps` strings, default-empty past the supplied ones. -/
def ParamStepped.mkS (nSteps : Int) (defaultval : Int) (labels : List String) :
    ParamStepped :=
  { base := Param.mkP 0 ((nSteps : ℚ) - 1) (defaultval : ℚ) nSteps
    nSteps := nSteps
    step_ := defaultval
    labels_ := labels.take nSteps.toNat ++ List.replicate (nSteps.toNat - labels.length) ""
    labelsSet := !labels.isEmpty }

/-- `ParamStepped::getStep`. -/
def ParamStepped.getStep (p : ParamStepped) : Int := p.step_

/-- `ParamStepped::setStep`: store the typed step and the matching raw
float. -/
def ParamStepped.setStep (p : ParamStepped) (v : Int) : ParamStepped :=
  { p with step_ := v, base := p.base.set (v : ℚ) }

/-- Inherited `Param::set` on a `ParamStepped`: updates only the raw
float, never the step. -/
def ParamStepped.set (p : ParamStepped) (f : ℚ) : ParamStepped :=
  { p with base := p.base.set f }

/-- `ParamStepped::setUI`: store the raw float unconditionally, then store
`trunc (f + 0.5)` as the step. The `jassert` on the step range is a
no-op here (release semantics). -/
def ParamStepped.setUI (p : ParamStepped) (f : ℚ) (notifyHost : Bool) :
    ParamStepped × List Nat :=
  ({ p with base := p.base.set f, step_ := ratTrunc (f + 1/2) },
   if notifyHost then p.base.listeners else [])

/-- Inherited `Param::setHost` on a `ParamStepped`; it dispatches to the
`ParamStepped::setUI` override. -/
def ParamStepped.setHost (p : ParamStepped) (f : ℚ) : ParamStepped × List Nat :=
  let r := p.setUI f false
  ({ r.1 with base := { r.1.base with uiDirty := true } }, r.2)

/-- Inherited `Param::isUIDirty` on a `ParamStepped`. -/
def ParamStepped.isUIDirty (p : ParamStepped) : ParamStepped × Bool :=
  ({ p with base := { p.base with uiDirty := false } }, p.base.uiDirty)

/-- `ParamStepped::getUIString`: the label at the current step index. -/
def ParamStepped.getUIString (p : ParamStepped) : String :=
  p.labels_.getD p.step_.toNat ""

/-- One mutating call on a `ParamStepped` (the operations named by the
stepped-range invariant claim). -/
inductive SOp where
  | rawSet (f : ℚ)
  | stepSet (v : Int)
  | uiSet (f : ℚ)
  | hostSet (f : ℚ)
deriving Repr, DecidableEq

/-- Apply one call to the state. -/
def SOp.apply (op : SOp) (p : ParamStepped) : ParamStepped :=
  match op with
  | .rawSet f => p.set f
  | .stepSet v => p.setStep v
  | .uiSet f => (p.setUI f true).1
  | .hostSet f => (p.setHost f).1

/-- The condition the code's `jassert`s place on one call: `setStep` gets
a valid enum member, `setUI`/`setHost` get a float whose rounded step lies
in range; `set` is unchecked. -/
def SOp.inRange (n : Int) : SOp → Bool
  | .rawSet _ => true
  | .stepSet v => decide (0 ≤ v ∧ v ≤ n - 1)
  | .uiSet f => decide (0 ≤ ratTrunc (f + 1/2) ∧ ratTrunc (f + 1/2) ≤ n - 1)
  | .hostSet f => decide (0 ≤ ratTrunc (f + 1/2) ∧ ratTrunc (f + 1/2) ≤ n - 1)

/-- A four-step parameter with labels A to D (the spec's running
example). -/
def sampleStepped : ParamStepped := ParamStepped.mkS 4 0 ["A", "B", "C", "D"]

/-- Round-half-up nearest integer, as the spec words it. -/
def roundHalfUp (q : ℚ) : Int := ⌊q + 1/2⌋

/-- A concrete operation sequence satisfying each call's range condition. -/
def sampleOps : List SOp := [.uiSet (13/5), .hostSet (1/5), .stepSet 3, .rawSet 100]

/-! ## Helper lemmas -/

/-- Listener registration never introduces duplicates, so the listener
list of every state reachable through `addListener` has no duplicates. -/
theorem addListener_nodup (p : Param) (l : Nat) (h : p.listeners.Nodup) :
    (p.addListener l).listeners.Nodup := by
  unfold Param.addListener
  split
  · exact h
  · refine List.Nodup.append h (List.nodup_singleton l) ?_
    intro a ha hb
    simp only [List.mem_singleton] at hb
    subst hb
    exact absurd ha (by assumption)

/-- Clearing the dirty flag any number of times keeps it false. -/
theorem param_clear_iter_false (n : ℕ) (q : Param) (h : q.uiDirty = false) :
    ((fun r => (Param.isUIDirty r).1)^[n] q).uiDirty = false := by
  induction n generalizing q with
  | zero => simpa using h
  | succ k ih =>
    rw [Function.iterate_succ_apply]
    exact ih _ rfl

/-- Clearing the dirty flag any number of times keeps it false
(decibel variant). -/
theorem paramDb_clear_iter_false (n : ℕ) (q : ParamDb) (h : q.uiDirty = false) :
    ((fun r => (ParamDb.isUIDirty r).1)^[n] q).uiDirty = false := by
  induction n generalizing q with
  | zero => simpa using h
  | succ k ih =>
    rw [Function.iterate_succ_apply]
    exact ih _ rfl

/-- Clearing the dirty flag any number of times keeps it false
(stepped variant). -/
theorem paramStepped_clear_iter_false (n : ℕ) (q : ParamStepped)
    (h : q.base.uiDirty = false) :
    ((fun r => (ParamStepped.isUIDirty r).1)^[n] q).base.uiDirty = false := by
  induction n generalizing q with
  | zero => simpa using h
  | succ k ih =>
    rw [Function.iterate_succ_apply]
    exact ih _ rfl

/-! ## Claims -/

/-- Claim C1: the base `Param.setUI` stores an in-range value exactly and
resets an out-of-range value to the default, as observed through
`getUI`. -/
theorem base_setUI_in_range_or_default (p : Param) (v : ℚ) :
    (p.min_ ≤ v ∧ v ≤ p.max_ → ((p.setUI v true).1).getUI = v) ∧
    (¬(p.min_ ≤ v ∧ v ≤ p.max_) → ((p.setUI v true).1).getUI = p.default_) := by
  constructor <;> intro h <;>
    simp [Param.setUI, Param.getUI, Param.get, Param.set, ge_iff_le, h]

/-- Witness for claim C1 at a concrete parameter with range `[0, 10]` and
default `5`: input `3` is kept, input `11` resets to the default. -/
theorem base_setUI_in_range_or_default_w :
    (((Param.mkP 0 10 5 0).min_ ≤ 3 ∧ (3 : ℚ) ≤ (Param.mkP 0 10 5 0).max_) ∧
      (((Param.mkP 0 10 5 0).setUI 3 true).1).getUI = 3) ∧
    (¬((Param.mkP 0 10 5 0).min_ ≤ 11 ∧ (11 : ℚ) ≤ (Param.mkP 0 10 5 0).max_) ∧
      (((Param.mkP 0 10 5 0).setUI 11 true).1).getUI = (Param.mkP 0 10 5 0).default_) :=
  ⟨⟨by decide, (base_setUI_in_range_or_default (Param.mkP 0 10 5 0) 3).1 (by decide)⟩,
   ⟨by decide, (base_setUI_in_range_or_default (Param.mkP 0 10 5 0) 11).2 (by decide)⟩⟩

/-- Claim C8: the MIDI pan mapping sends 64 to exactly 0, both 0 and 1 to
exactly −1, and 127 through the generic affine formula, which gives
exactly 1. -/
theorem midiToPanValue_anchor_points :
    Param.midiToPanValue 64 = 0 ∧ Param.midiToPanValue 0 = -1 ∧
    Param.midiToPanValue 1 = -1 ∧
    Param.midiToPanValue 127 = 2 * (127 : ℚ) / 127 - 1 ∧
    Param.midiToPanValue 127 = 1 := by
  refine ⟨rfl, rfl, rfl, ?_, ?_⟩ <;> norm_num [Param.midiToPanValue]

/-- Claim C10: a validly constructed parameter starts at its default:
`get` returns the default for the base and decibel constructors, and the
stepped constructor additionally starts `getStep` at the default member. -/
theorem construction_yields_default :
    (∀ (a b d : ℚ) (n : Int), a < b → a ≤ d → d ≤ b → (Param.mkP a b d n).get = d) ∧
    (∀ a b d : ℝ, a < b → a ≤ d → d ≤ b → (ParamDb.mkP a b d).get = d) ∧
    (∀ (ns d : Int) (labels : List String), 1 < ns → 0 ≤ d → d ≤ ns - 1 →
      (ParamStepped.mkS ns d labels).getStep = d ∧
      (ParamStepped.mkS ns d labels).base.get = (d : ℚ)) :=
  ⟨fun _ _ _ _ _ _ _ => rfl, fun _ _ _ _ _ _ => rfl,
   fun _ _ _ _ _ _ => ⟨rfl, rfl⟩⟩

/-- Witness for claim C10: the base constructor at range `[0, 10]` with
default `5`, the decibel constructor at range `[0, 1]` with default
`1/2`, and the four-step constructor with default member `2`. -/
theorem construction_yields_default_w :
    ((0 : ℚ) < 10 ∧ (0 : ℚ) ≤ 5 ∧ (5 : ℚ) ≤ 10 ∧ (Param.mkP 0 10 5 0).get = 5) ∧
    ((0 : ℝ) < 1 ∧ (0 : ℝ) ≤ 1/2 ∧ (1/2 : ℝ) ≤ 1 ∧ (ParamDb.mkP 0 1 (1/2)).get = 1/2) ∧
    ((1 : Int) < 4 ∧ (0 : Int) ≤ 2 ∧ (2 : Int) ≤ 4 - 1 ∧
      (ParamStepped.mkS 4 2 ["A", "B", "C", "D"]).getStep = 2) :=
  ⟨⟨by norm_num, by norm_num, by norm_num,
    construction_yields_default.1 0 10 5 0 (by norm_num) (by norm_num) (by norm_num)⟩,
   ⟨by norm_num, by norm_num, by norm_num,
    construction_yields_default.2.1 0 1 (1/2) (by norm_num) (by norm_num) (by norm_num)⟩,
   ⟨by norm_num, by norm_num, by norm_num,
    (construction_yields_default.2.2 4 2 ["A", "B", "C", "D"]
      (by norm_num) (by norm_num) (by norm_num)).1⟩⟩

/-- Claim C6: `ParamDb.setUI` performs the range check on the converted
linear value `fromDb f` and stores that linear value on success and the
default on failure, and `getUI` is `toDb` of the stored linear value. -/
theorem paramDb_converted_check (p : ParamDb) (f : ℝ) :
    ((p.setUI f true).1).val_ =
      (if fromDb f ≥ p.min_ ∧ fromDb f ≤ p.max_ then fromDb f else p.default_) ∧
    p.getUI = toDb p.val_ := by
  constructor
  · unfold ParamDb.setUI ParamDb.set
    split <;> rfl
  · rfl

/-- Claim C2: `setHost` notifies no listener, and `setUI` with
notification on calls each registered listener exactly once — for the
base class and both variants. -/
theorem notify_once_from_UI_only :
    (∀ (p : Param) (v : ℚ), (p.setHost v).2 = []) ∧
    (∀ (p : ParamDb) (v : ℝ), (p.setHost v).2 = []) ∧
    (∀ (p : ParamStepped) (v : ℚ), (p.setHost v).2 = []) ∧
    (∀ (p : Param) (v : ℚ) (l : Nat), p.listeners.Nodup → l ∈ p.listeners →
      ((p.setUI v true).2).count l = 1) ∧
    (∀ (p : ParamDb) (v : ℝ) (l : Nat), p.listeners.Nodup → l ∈ p.listeners →
      ((p.setUI v true).2).count l = 1) ∧
    (∀ (p : ParamStepped) (v : ℚ) (l : Nat), p.base.listeners.Nodup →
      l ∈ p.base.listeners → ((p.setUI v true).2).count l = 1) := by
  refine ⟨fun p v => rfl, fun p v => rfl, fun p v => rfl, ?_, ?_, ?_⟩
  · intro p v l hnd hmem
    simpa [Param.setUI] using List.count_eq_one_of_mem hnd hmem
  · intro p v l hnd hmem
    simpa [ParamDb.setUI] using List.count_eq_one_of_mem hnd hmem
  · intro p v l hnd hmem
    simpa [ParamStepped.setUI] using List.count_eq_one_of_mem hnd hmem

/-- Witness for claim C2: concrete parameters with listeners `7` and `3`
registered through `addListener`; the UI setter notifies listener `7`
exactly once. -/
theorem notify_once_from_UI_only_w :
    ((((Param.mkP 0 1 0 0).addListener 7).addListener 3).listeners.Nodup ∧
      7 ∈ (((Param.mkP 0 1 0 0).addListener 7).addListener 3).listeners ∧
      (((((Param.mkP 0 1 0 0).addListener 7).addListener 3).setUI 1 true).2).count 7 = 1) ∧
    ((ParamDb.mk 0 0 1 0 false [7, 3]).listeners.Nodup ∧
      7 ∈ (ParamDb.mk 0 0 1 0 false [7, 3]).listeners ∧
      (((ParamDb.mk 0 0 1 0 false [7, 3]).setUI 1 true).2).count 7 = 1) ∧
    (({ sampleStepped with base := { sampleStepped.base with listeners := [7, 3] } }
        : ParamStepped).base.listeners.Nodup ∧
      (((({ sampleStepped with base := { sampleStepped.base with listeners := [7, 3] } }
        : ParamStepped).setUI 1 true).2).count 7 = 1)) :=
  ⟨⟨by decide, by decide,
    notify_once_from_UI_only.2.2.2.1 _ 1 7 (by decide) (by decide)⟩,
   ⟨by decide, by decide,
    notify_once_from_UI_only.2.2.2.2.1 _ 1 7 (by decide) (by decide)⟩,
   ⟨by decide,
    notify_once_from_UI_only.2.2.2.2.2 _ 1 7 (by decide) (by decide)⟩⟩

/-- Claim C3: after `setHost`, the first `isUIDirty` yields true, and
every later call yields false until another dirty-setting write — for the
base class and both variants. -/
theorem isUIDirty_get_and_reset :
    (∀ (p : Param) (v : ℚ),
      (((p.setHost v).1).isUIDirty).2 = true ∧
      ∀ n : ℕ,
        (((fun r => (Param.isUIDirty r).1)^[n + 1] (p.setHost v).1).isUIDirty).2 = false) ∧
    (∀ (p : ParamDb) (v : ℝ),
      (((p.setHost v).1).isUIDirty).2 = true ∧
      ∀ n : ℕ,
        (((fun r => (ParamDb.isUIDirty r).1)^[n + 1] (p.setHost v).1).isUIDirty).2 = false) ∧
    (∀ (p : ParamStepped) (v : ℚ),
      (((p.setHost v).1).isUIDirty).2 = true ∧
      ∀ n : ℕ,
        (((fun r => (ParamStepped.isUIDirty r).1)^[n + 1] (p.setHost v).1).isUIDirty).2
          = false) := by
  refine ⟨fun p v => ⟨rfl, fun n => ?_⟩, fun p v => ⟨rfl, fun n => ?_⟩,
    fun p v => ⟨rfl, fun n => ?_⟩⟩
  · rw [Function.iterate_succ_apply]
    exact param_clear_iter_false n _ rfl
  · rw [Function.iterate_succ_apply]
    exact paramDb_clear_iter_false n _ rfl
  · rw [Function.iterate_succ_apply]
    exact paramStepped_clear_iter_false n _ rfl

/-- Claim C7: the decibel conversions: `toDb 0` is `MIN_DB`, which is
`-96`; `fromDb MIN_DB` is `0`; and `fromDb` inverts `toDb` on every
positive linear value whose decibel image lies above `MIN_DB`. -/
theorem db_conversion_roundtrip :
    toDb 0 = MIN_DB ∧ MIN_DB = -96 ∧ fromDb MIN_DB = 0 ∧
    ∀ x : ℝ, 0 < x → MIN_DB < toDb x → fromDb (toDb x) = x := by
  refine ⟨by simp [toDb], rfl, by simp [fromDb], ?_⟩
  intro x hx hdb
  have htd : toDb x = 20 * Real.logb 10 x := by simp [toDb, hx]
  rw [htd] at hdb ⊢
  unfold fromDb
  rw [if_neg (not_le.mpr hdb)]
  have h20 : (20 : ℝ) * Real.logb 10 x / 20 = Real.logb 10 x := by ring
  rw [h20, Real.rpow_logb (by norm_num) (by norm_num) hx]

/-- Witness for claim C7 at the linear value `10`: it is positive, its
decibel image `20` lies above `MIN_DB`, and the round-trip returns `10`. -/
theorem db_conversion_roundtrip_w :
    (0 : ℝ) < 10 ∧ MIN_DB < toDb 10 ∧ fromDb (toDb 10) = 10 :=
  have h1 : (0 : ℝ) < 10 := by norm_num
  have h2 : MIN_DB < toDb 10 := by
    rw [toDb, if_pos h1, Real.logb_self_eq_one (by norm_num)]
    rw [MIN_DB]; norm_num
  ⟨h1, h2, db_conversion_roundtrip.2.2.2 10 h1 h2⟩

/-- Applying any operation leaves the enum cardinality unchanged. -/
theorem SOp.apply_nSteps (op : SOp) (p : ParamStepped) :
    (op.apply p).nSteps = p.nSteps := by
  cases op <;> rfl

/-- One in-range operation keeps the stored step within `[0, nSteps-1]`. -/
theorem SOp.apply_step_inRange (op : SOp) (p : ParamStepped)
    (h : 0 ≤ p.step_ ∧ p.step_ ≤ p.nSteps - 1)
    (hop : op.inRange p.nSteps = true) :
    0 ≤ (op.apply p).step_ ∧ (op.apply p).step_ ≤ p.nSteps - 1 := by
  cases op with
  | rawSet f => exact h
  | stepSet v =>
    simpa [SOp.apply, ParamStepped.setStep] using
      (by simpa [SOp.inRange] using hop : 0 ≤ v ∧ v ≤ p.nSteps - 1)
  | uiSet f =>
    simpa [SOp.apply, ParamStepped.setUI] using
      (by simpa [SOp.inRange] using hop :
        0 ≤ ratTrunc (f + 1/2) ∧ ratTrunc (f + 1/2) ≤ p.nSteps - 1)
  | hostSet f =>
    simpa [SOp.apply, ParamStepped.setHost, ParamStepped.setUI] using
      (by simpa [SOp.inRange] using hop :
        0 ≤ ratTrunc (f + 1/2) ∧ ratTrunc (f + 1/2) ≤ p.nSteps - 1)

/-- Claim C4 counterexample: on the four-step parameter, `setUI 10` stores
step `10`, which is outside `[0, 3]`: the stepped range invariant fails on
an arbitrary operation sequence, because `ParamStepped::setUI` checks the
rounded step only with a debug-only assertion. -/
theorem stepped_range_invariant_cex :
    ¬(0 ≤ ((sampleStepped.setUI 10 true).1).step_ ∧
      ((sampleStepped.setUI 10 true).1).step_ ≤ sampleStepped.nSteps - 1) := by
  norm_num [sampleStepped, ParamStepped.mkS, ParamStepped.setUI, ratTrunc]

/-- Claim C4 amended: for every operation sequence in which each `setStep`
argument is a valid member and each `setUI`/`setHost` argument rounds into
`[0, nSteps-1]` — the condition the code's assertions check — the stored
step stays within `[0, nSteps-1]`. -/
theorem stepped_range_invariant (p : ParamStepped) (ops : List SOp)
    (h0 : 0 ≤ p.step_ ∧ p.step_ ≤ p.nSteps - 1)
    (hops : ∀ op ∈ ops, op.inRange p.nSteps = true) :
    0 ≤ (ops.foldl (fun q op => op.apply q) p).step_ ∧
      (ops.foldl (fun q op => op.apply q) p).step_ ≤ p.nSteps - 1 := by
  induction ops generalizing p with
  | nil => simpa using h0
  | cons op rest ih =>
    simp only [List.foldl_cons]
    have hop := hops op (List.mem_cons_self op rest)
    have h1 := SOp.apply_step_inRange op p h0 hop
    have hn := SOp.apply_nSteps op p
    have h2 : 0 ≤ (op.apply p).step_ ∧ (op.apply p).step_ ≤ (op.apply p).nSteps - 1 := by
      rw [hn]; exact h1
    have hops2 : ∀ o ∈ rest, o.inRange (op.apply p).nSteps = true := by
      rw [hn]; exact fun o ho => hops o (List.mem_cons_of_mem op ho)
    have h3 := ih (op.apply p) h2 hops2
    rwa [hn] at h3

/-- Witness for the amended claim C4: the four-step parameter run through
a concrete sequence of one call of each kind, all in range. -/
theorem stepped_range_invariant_w :
    (0 ≤ sampleStepped.step_ ∧ sampleStepped.step_ ≤ sampleStepped.nSteps - 1) ∧
    (∀ op ∈ sampleOps, op.inRange sampleStepped.nSteps = true) ∧
    (0 ≤ (sampleOps.foldl (fun q op => op.apply q) sampleStepped).step_ ∧
      (sampleOps.foldl (fun q op => op.apply q) sampleStepped).step_
        ≤ sampleStepped.nSteps - 1) := by
  have hops : ∀ op ∈ sampleOps, op.inRange sampleStepped.nSteps = true := by
    intro op hop
    simp only [sampleOps, List.mem_cons, List.not_mem_nil, or_false] at hop
    rcases hop with h | h | h | h <;> subst h <;>
      simp only [SOp.inRange, sampleStepped, ParamStepped.mkS, decide_eq_true_eq] <;>
      norm_num [ratTrunc]
  exact ⟨by decide, hops, stepped_range_invariant sampleStepped sampleOps (by decide) hops⟩

/-- Claim C5 counterexample: at input `−1` the code stores step `0`
(truncation toward zero of `−1/2`) while the round-half-up nearest
integer of `−1` is `−1`, so the step is not always the round-half-up
nearest integer of the input. -/
theorem stepped_setUI_roundhalfup_cex :
    ((sampleStepped.setUI (-1) true).1).step_ = 0 ∧ roundHalfUp (-1) = -1 ∧
    ((sampleStepped.setUI (-1) true).1).step_ ≠ roundHalfUp (-1) := by
  have hstep : ((sampleStepped.setUI (-1) true).1).step_ = 0 := by
    show ratTrunc (-1 + 1/2) = 0
    norm_num [ratTrunc]
  have hr : roundHalfUp (-1) = -1 := by
    unfold roundHalfUp
    norm_num
  exact ⟨hstep, hr, by rw [hstep, hr]; decide⟩

/-- Claim C5 amended: `setUI` stores the raw float unchanged (no reset to
the default) and stores `trunc (v + 1/2)` as the step, which is the
round-half-up nearest integer for every `v ≥ −1/2` — in particular on the
whole step range; the concrete four-step examples hold: `setUI 1.4` gives
step `1` with label `"B"`, `setUI 1.5` gives step `2`. -/
theorem stepped_setUI_rounds (p : ParamStepped) (f : ℚ) (b : Bool) :
    ((p.setUI f b).1).base.val_ = f ∧
    ((p.setUI f b).1).step_ = ratTrunc (f + 1/2) ∧
    (-(1/2) ≤ f → ((p.setUI f b).1).step_ = roundHalfUp f) ∧
    ((sampleStepped.setUI (7/5) true).1).getStep = 1 ∧
    ((sampleStepped.setUI (7/5) true).1).getUIString = "B" ∧
    ((sampleStepped.setUI (3/2) true).1).getStep = 2 := by
  refine ⟨rfl, rfl, fun h => ?_, ?_, ?_, ?_⟩
  · show ratTrunc (f + 1/2) = roundHalfUp f
    have hnn : 0 ≤ f + 1/2 := by linarith
    unfold ratTrunc roundHalfUp
    rw [if_pos hnn]
  · show ratTrunc (7/5 + 1/2) = 1
    norm_num [ratTrunc]
  · have hstep : ((sampleStepped.setUI (7/5) true).1).step_ = 1 := by
      show ratTrunc (7/5 + 1/2) = 1
      norm_num [ratTrunc]
    unfold ParamStepped.getUIString
    rw [hstep]
    rfl
  · show ratTrunc (3/2 + 1/2) = 2
    norm_num [ratTrunc]

/-- Witness for the amended claim C5 at input `1.4`: the hypothesis
`−1/2 ≤ 1.4` holds and the stored step is the round-half-up value. -/
theorem stepped_setUI_rounds_w :
    -(1/2 : ℚ) ≤ 7/5 ∧ ((sampleStepped.setUI (7/5) true).1).step_ = roundHalfUp (7/5) :=
  ⟨by norm_num, (stepped_setUI_rounds sampleStepped (7/5) true).2.2.1 (by norm_num)⟩

/-- Claim C9 counterexample: the stepped variant does not inherit the
fall-back-to-default validation: on the four-step parameter, `setHost 10`
with `10` outside the declared range `[0, 3]` leaves the stored value
`10`, not the default `0`. -/
theorem setHost_stepped_keeps_out_of_range_cex :
    ¬((10 : ℚ) ≥ sampleStepped.base.min_ ∧ (10 : ℚ) ≤ sampleStepped.base.max_) ∧
    ((sampleStepped.setHost 10).1).base.val_ = 10 ∧
    sampleStepped.base.default_ = 0 ∧
    ((sampleStepped.setHost 10).1).base.val_ ≠ sampleStepped.base.default_ := by
  refine ⟨?_, rfl, rfl, ?_⟩
  · norm_num [sampleStepped, ParamStepped.mkS, Param.mkP]
  · show (10 : ℚ) ≠ ((0 : Int) : ℚ)
    norm_num

/-- Claim C9 amended: for the base class and the decibel variant — not
the stepped variant — `setHost` with a value failing the respective range
check stores the configured default. -/
theorem setHost_out_of_range_default :
    (∀ (p : Param) (v : ℚ), ¬(v ≥ p.min_ ∧ v ≤ p.max_) →
      ((p.setHost v).1).get = p.default_) ∧
    (∀ (p : ParamDb) (v : ℝ), ¬(fromDb v ≥ p.min_ ∧ fromDb v ≤ p.max_) →
      ((p.setHost v).1).get = p.default_) := by
  constructor
  · intro p v h
    simp [Param.setHost, Param.setUI, Param.set, Param.get, h]
  · intro p v h
    simp [ParamDb.setHost, ParamDb.setUI, ParamDb.set, ParamDb.get, h]

/-- Witness for the amended claim C9: a base parameter with range `[0, 1]`
written with `5`, and a decibel parameter with linear range `[1, 2]`
written with `−100` dB (which converts to linear `0`); both land on their
defaults. -/
theorem setHost_out_of_range_default_w :
    (¬((5 : ℚ) ≥ (Param.mkP 0 1 0 0).min_ ∧ (5 : ℚ) ≤ (Param.mkP 0 1 0 0).max_) ∧
      (((Param.mkP 0 1 0 0).setHost 5).1).get = (Param.mkP 0 1 0 0).default_) ∧
    (¬(fromDb (-100) ≥ (ParamDb.mkP 1 2 1).min_ ∧
        fromDb (-100) ≤ (ParamDb.mkP 1 2 1).max_) ∧
      (((ParamDb.mkP 1 2 1).setHost (-100)).1).get = (ParamDb.mkP 1 2 1).default_) := by
  have h1 : ¬((5 : ℚ) ≥ (Param.mkP 0 1 0 0).min_ ∧ (5 : ℚ) ≤ (Param.mkP 0 1 0 0).max_) := by
    decide
  have hfd : fromDb (-100) = 0 := by
    rw [fromDb, if_pos]
    rw [MIN_DB]
    norm_num
  have h2 : ¬(fromDb (-100) ≥ (ParamDb.mkP 1 2 1).min_ ∧
      fromDb (-100) ≤ (ParamDb.mkP 1 2 1).max_) := by
    rw [hfd]
    intro hc
    have hcontra : (1 : ℝ) ≤ 0 := hc.1
    linarith
  exact ⟨⟨h1, setHost_out_of_range_default.1 (Param.mkP 0 1 0 0) 5 h1⟩,
    ⟨h2, setHost_out_of_range_default.2 (ParamDb.mkP 1 2 1) (-100) h2⟩⟩
